import Mathlib

set_option autoImplicit false

/-!
Shallow embedding of the cryptofiend connectivity core: the orderbook store
(`exchanges/orderbook/orderbook.go`) and the Binance signed/rate-limited
request client (`exchanges/binance/binance.go`).  Go maps are modelled as
association lists, clock reads as explicit time parameters, and the HTTP
transport and JSON codecs as explicit function-valued environment fields.
-/

/-- Association-list lookup, mirroring a Go map read `m[k]` in its comma-ok form. -/
def alookup {α β : Type} [DecidableEq α] : List (α × β) → α → Option β
  | [], _ => none
  | (k, v) :: t, k' => if k' = k then some v else alookup t k'

/-- Association-list update, mirroring a Go map write `m[k] = v`. -/
def aset {α β : Type} [DecidableEq α] : List (α × β) → α → β → List (α × β)
  | [], k, v => [(k, v)]
  | (k', v') :: t, k, v => if k' = k then (k, v) :: t else (k', v') :: aset t k v

/-- Modelled from the spec: the CurrencyPairCodec case-fold on a single currency
symbol (`CurrencyItem.Lower` of the currency/pair package, which lies outside
the embedded sources; §6 requires "a lowercase/case-fold operation on a single
currency symbol"). -/
def lowerItem (s : String) : String := ⟨s.data.map Char.toLower⟩

/-- Modelled from the spec: the codec's upper-casing of a single currency symbol
(`CurrencyItem.Upper` of the missing currency/pair package). -/
def upperItem (s : String) : String := ⟨s.data.map Char.toUpper⟩

/-- CurrencyPair holds currency pair information (currency/pair package,
fields as used by the embedded sources). -/
structure CurrencyPair where
  delimiter : String
  firstCurrency : String
  secondCurrency : String
deriving DecidableEq

/-- Modelled from the spec: the codec's pair-level formatting
(`CurrencyPair.FormatPair` of the missing currency/pair package).  Per §3 the
internal canonical form has a fixed delimiter and fixed case, so the flag picks
upper case when set and lower case otherwise, applied uniformly to both
currencies (§4.1). -/
def CurrencyPair.formatPair (p : CurrencyPair) (delimiter : String) (uppercase : Bool) :
    CurrencyPair :=
  if uppercase then
    ⟨delimiter, upperItem p.firstCurrency, upperItem p.secondCurrency⟩
  else
    ⟨delimiter, lowerItem p.firstCurrency, lowerItem p.secondCurrency⟩

/-- Rendering of `p.Pair().String()`: first currency, delimiter, second currency. -/
def CurrencyPair.pairString (p : CurrencyPair) : String :=
  p.firstCurrency ++ p.delimiter ++ p.secondCurrency

/-- Error message constants of the orderbook package. -/
def ErrOrderbookForExchangeNotFound : String := "Orderbook for exchange does not exist."

/-- Message of the primary-currency lookup error. -/
def ErrPrimaryCurrencyNotFound : String := "Error primary currency for orderbook not found."

/-- Message of the secondary-currency lookup error. -/
def ErrSecondaryCurrencyNotFound : String := "Error secondary currency for orderbook not found."

/-- Book type constant `Spot`. -/
def Spot : String := "SPOT"

/-- Item stores the amount and price values.  The Go fields are float64; they
are modelled as rationals since no claim involves floating-point rounding. -/
structure Item where
  amount : Rat
  price : Rat
deriving DecidableEq

/-- Base holds the fields for the orderbook base.  `lastUpdated` (a Go
time.Time) is modelled as a natural-number clock reading. -/
structure Base where
  pair : CurrencyPair
  currencyPair : String
  bids : List Item
  asks : List Item
  lastUpdated : Nat
deriving DecidableEq

/-- Go zero value of `Base`, which a map read yields at a missing key. -/
def Base.empty : Base := ⟨⟨"", "", ""⟩, "", [], [], 0⟩

/-- Orderbooks stores the order books: a three-level nested map keyed by first
currency, second currency, and orderbook type. -/
structure Orderbooks where
  orderbooks : List (String × List (String × List (String × Base)))
deriving DecidableEq

/-- Internal canonical formatting of a pair: `p.FormatPair("/", false)`. -/
def Orderbooks.formatCurrencyPair (_o : Orderbooks) (p : CurrencyPair) : CurrencyPair :=
  p.formatPair "/" false

/-- Internal formatting of a single currency: `currency.Lower()`. -/
def Orderbooks.formatCurrency (_o : Orderbooks) (c : String) : String :=
  lowerItem c

/-- FirstCurrencyExists checks whether the first currency of the orderbook map
exists. -/
def Orderbooks.firstCurrencyExists (o : Orderbooks) (currency : String) : Bool :=
  (alookup o.orderbooks (o.formatCurrency currency)).isSome

/-- SecondCurrencyExists checks whether the second currency of the orderbook
map exists. -/
def Orderbooks.secondCurrencyExists (o : Orderbooks) (p : CurrencyPair) : Bool :=
  let fp := o.formatCurrencyPair p
  match alookup o.orderbooks fp.firstCurrency with
  | some inner => (alookup inner fp.secondCurrency).isSome
  | none => false

/-- GetOrderbook checks and returns the orderbook given an exchange name and
currency pair if it exists.  The exchange-name parameter is unused in the
source (`_ string`). -/
def Orderbooks.getOrderbook (o : Orderbooks) (_exchangeName : String) (p : CurrencyPair)
    (orderbookType : String) : Except String Base :=
  let fp := o.formatCurrencyPair p
  if o.firstCurrencyExists fp.firstCurrency = false then
    Except.error ErrPrimaryCurrencyNotFound
  else if o.secondCurrencyExists fp = false then
    Except.error
      (ErrSecondaryCurrencyNotFound ++ "-" ++ fp.firstCurrency ++ "-" ++ fp.secondCurrency)
  else
    Except.ok
      ((alookup
          ((alookup ((alookup o.orderbooks fp.firstCurrency).getD []) fp.secondCurrency).getD [])
          orderbookType).getD Base.empty)

/-- ProcessOrderbook processes incoming orderbooks, creating or updating the
orderbook list.  `now` stands for the `time.Now()` read used to stamp
`LastUpdated`; the exchange-name parameter is unused in the source. -/
def Orderbooks.processOrderbook (o : Orderbooks) (now : Nat) (_exchangeName : String)
    (p : CurrencyPair) (orderbookNew : Base) (orderbookType : String) : Orderbooks :=
  let fp := o.formatCurrencyPair p
  let ob := { orderbookNew with currencyPair := fp.pairString, lastUpdated := now }
  if o.firstCurrencyExists fp.firstCurrency then
    if o.secondCurrencyExists fp = false then
      let inner := (alookup o.orderbooks fp.firstCurrency).getD []
      ⟨aset o.orderbooks fp.firstCurrency (aset inner fp.secondCurrency [(orderbookType, ob)])⟩
    else
      let inner := (alookup o.orderbooks fp.firstCurrency).getD []
      let inner2 := (alookup inner fp.secondCurrency).getD []
      ⟨aset o.orderbooks fp.firstCurrency
        (aset inner fp.secondCurrency (aset inner2 orderbookType ob))⟩
  else
    ⟨aset o.orderbooks fp.firstCurrency [(fp.secondCurrency, [(orderbookType, ob)])]⟩

/-- Init creates a new empty set of orderbooks. -/
def Orderbooks.init : Orderbooks := ⟨[]⟩

/-- Base URL of the venue. -/
def binanceBaseURL : String := "https://www.binance.com/"

/-- Path of the depth (orderbook) endpoint. -/
def binanceDepthPath : String := "api/v1/depth"

/-- Path of the account endpoint. -/
def binanceAccountPath : String := "api/v3/account"

/-- rateLimitInfo tracks the Unix-seconds start of the current window and the
request count within it. -/
structure rateLimitInfo where
  startTime : Int
  requestCount : Nat
deriving DecidableEq

/-- Classification of the caller's result argument as seen through reflection:
a non-nil pointer, a typed nil pointer, or anything that is not a pointer
(including a nil interface, whose reflect kind is Invalid). -/
inductive ResultSinkKind where
  | validPtr
  | nilPtr
  | notPtr
deriving DecidableEq

/-- Observable outcome of SendRateLimitedHTTPRequest: the call proceeded to the
`SendHTTPRequest` network path, or the budget was exhausted and the default
value was copied into the result sink with a nil error, or the exhausted path
rejected its arguments with an error. -/
inductive RLResult (α : Type) where
  | network
  | defaultSet (v : α)
  | errResult (msg : String)
deriving DecidableEq

/-- SendRateLimitedHTTPRequest: per-endpoint fixed-window accounting and the
degrade-to-default policy (binance.go).  `now` stands for the
`time.Now().Unix()` read.  Returns the updated rateLimits map and the outcome.
A non-nil pointer default and a plain-value default both end in copying the
carried value, so `defaultValue` is modelled as `Option α` with `none` for a
nil interface. -/
def sendRateLimitedHTTPRequest {α : Type} (rateLimits : List (String × rateLimitInfo))
    (now : Int) (requestsPerMin : Nat) (method path : String)
    (result : ResultSinkKind) (defaultValue : Option α) :
    List (String × rateLimitInfo) × RLResult α :=
  let key := method ++ path
  let rl0 := (alookup rateLimits key).getD ⟨0, 0⟩
  let rl1 := if rl0.startTime = 0 ∨ now - rl0.startTime > 90 then ⟨now, 0⟩ else rl0
  if rl1.requestCount < requestsPerMin then
    (aset rateLimits key ⟨rl1.startTime, rl1.requestCount + 1⟩, RLResult.network)
  else
    (aset rateLimits key rl1,
      match result, defaultValue with
      | ResultSinkKind.validPtr, some d => RLResult.defaultSet d
      | ResultSinkKind.validPtr, none => RLResult.errResult "default value must be not be nil"
      | _, _ => RLResult.errResult "result must be a non-nil pointer")

/-- Folds a list of call times through the rate limiter for one endpoint,
collecting each call's outcome in order. -/
def runRateLimited {α : Type} (requestsPerMin : Nat) (method path : String)
    (result : ResultSinkKind) (defaultValue : Option α) :
    List Int → List (String × rateLimitInfo) →
      List (String × rateLimitInfo) × List (RLResult α)
  | [], rls => (rls, [])
  | t :: ts, rls =>
    let step := sendRateLimitedHTTPRequest rls t requestsPerMin method path result defaultValue
    let rest := runRateLimited requestsPerMin method path result defaultValue ts step.1
    (rest.1, step.2 :: rest.2)

/-- Response envelope on venue error.  Modelled from the spec (§6): a JSON
object with integer `code` and string `message` (`ErrorInfo` is declared in
the Binance types file, outside the embedded sources). -/
structure ErrorInfo where
  code : Int
  message : String
deriving DecidableEq

/-- Modelled from the spec: the snapshot wire type of the depth endpoint
(`MarketData`, declared in the Binance types file outside the embedded
sources); bid/ask levels are price/amount lists.  Its shape is irrelevant to
the claims. -/
structure MarketData where
  lastUpdateId : Int
  bids : List (Rat × Rat)
  asks : List (Rat × Rat)
deriving DecidableEq

/-- Configuration and credential fields of `exchange.Base` used by the client.
Modelled from the spec (§4.2, §7): `authenticatedAPISupport` is the flag that
an API key/secret pair is configured. -/
structure ExchangeBase where
  name : String
  authenticatedAPISupport : Bool
  apiKey : String
  apiSecret : String
deriving DecidableEq

/-- An HTTP request as handed to the transport. -/
structure HTTPRequest where
  method : String
  url : String
  headers : List (String × String)
  body : Option String
deriving DecidableEq

/-- Environment of effectful collaborators used by `SendHTTPRequest`.
Modelled from the spec: the clock, the HMAC primitive
(`hex.EncodeToString(common.GetHMAC(HashSHA256, payload, secret))`, an
arbitrary deterministic function of secret and payload), the transport
(`common.SendHTTPRequest2`, yielding a body and status code or a transport
error), and the JSON decoders (`common.JSONDecode`) for the result type and
the error envelope — all from packages outside the embedded sources. -/
structure HttpEnv (α : Type) where
  nowNanos : Nat
  hmacSHA256hex : String → String → String
  transport : HTTPRequest → Except String (String × Int)
  decodeResult : String → Option α
  decodeErrorInfo : String → Option ErrorInfo

/-- Modelled from the spec: the missing-credentials configuration error
(`exchange.WarningAuthenticatedRequestWithoutCredentialsSet` formatted with
the exchange name; the constant lives in the exchanges package outside the
embedded sources). -/
def warningAuthenticatedRequestWithoutCredentialsSet (name : String) : String :=
  name ++ " authenticated HTTP request called but credentials are not set"

/-- Byte-lexicographic string comparison, the order Go's sort applies to the
parameter keys. -/
def charsLe : List Char → List Char → Bool
  | [], _ => true
  | _ :: _, [] => false
  | a :: as, b :: bs =>
    if a.toNat < b.toNat then true
    else if a.toNat = b.toNat then charsLe as bs
    else false

/-- Key order used by the parameter encoder. -/
def keyLe (a b : String) : Bool := charsLe a.data b.data

/-- Insertion of one key/value pair into a key-sorted parameter list. -/
def insertByKey (x : String × String) : List (String × String) → List (String × String)
  | [] => [x]
  | y :: t => if keyLe x.1 y.1 then x :: y :: t else y :: insertByKey x t

/-- Key-sorting of parameters, as `url.Values.Encode` sorts by key. -/
def sortByKey : List (String × String) → List (String × String)
  | [] => []
  | x :: t => insertByKey x (sortByKey t)

/-- `url.Values.Encode`: parameters rendered as `k=v` pairs joined with `&`,
keys sorted.  Percent-escaping is elided: every key and value the claims
exercise consists of unreserved characters. -/
def encodeValues (params : List (String × String)) : String :=
  match sortByKey params with
  | [] => ""
  | x :: t => t.foldl (fun acc y => acc ++ "&" ++ y.1 ++ "=" ++ y.2) (x.1 ++ "=" ++ x.2)

/-- Payload construction of `SendHTTPRequest`: the encoded parameters, and —
for signed calls — the appended millisecond timestamp, the fixed
`recvWindow`, and the hex HMAC-SHA256 signature over the preceding query
string, computed with the configured secret. -/
def signPayload {α : Type} (b : ExchangeBase) (env : HttpEnv α)
    (params : List (String × String)) (sign : Bool) : String :=
  let payload0 := if params ≠ [] then encodeValues params else ""
  if sign then
    let timestamp := env.nowNanos / (1000 * 1000)
    let timeWindow := "timestamp=" ++ toString timestamp ++ "&recvWindow=" ++
      toString (5000 : Nat)
    let payload1 := if payload0 ≠ "" then payload0 ++ "&" ++ timeWindow else timeWindow
    payload1 ++ "&signature=" ++ env.hmacSHA256hex b.apiSecret payload1
  else payload0

/-- Request construction of `SendHTTPRequest`: Accept header always, the API
key attached only as the X-MBX-APIKEY header when signing; GET places the
payload in the URL query string, any other method form-encodes it into the
body with the matching content type. -/
def buildRequest {α : Type} (b : ExchangeBase) (env : HttpEnv α)
    (method path : String) (params : List (String × String)) (sign : Bool) : HTTPRequest :=
  let headers :=
    if sign then [("Accept", "application/json"), ("X-MBX-APIKEY", b.apiKey)]
    else [("Accept", "application/json")]
  let payload := signPayload b env params sign
  if method = "GET" then
    ⟨method, binanceBaseURL ++ path ++ "?" ++ payload, headers, none⟩
  else
    ⟨method, binanceBaseURL ++ path,
      headers ++ [("Content-Type", "application/x-www-form-urlencoded")], some payload⟩

/-- Observable result of `SendHTTPRequest`: the dispatched request (`none`
when the function returned before dispatch), the returned integer code, the
returned error message (`none` for a nil error), and the value decoded into
the result sink. -/
structure SendOutcome (α : Type) where
  requestSent : Option HTTPRequest
  code : Int
  err : Option String
  written : Option α
deriving DecidableEq

/-- SendHTTPRequest (binance.go): guards on configured credentials, builds and
optionally signs the request, dispatches it, and decodes the response — a 2xx
body into the result sink, any other status as the venue error envelope whose
code and message are returned verbatim. -/
def sendHTTPRequest {α : Type} (b : ExchangeBase) (env : HttpEnv α)
    (method path : String) (params : List (String × String)) (sign : Bool) :
    SendOutcome α :=
  if b.authenticatedAPISupport = false then
    ⟨none, 0, some (warningAuthenticatedRequestWithoutCredentialsSet b.name), none⟩
  else
    let req := buildRequest b env method path params sign
    match env.transport req with
    | Except.error e => ⟨some req, 0, some e, none⟩
    | Except.ok (resp, statusCode) =>
      if 200 ≤ statusCode ∧ statusCode ≤ 299 then
        match env.decodeResult resp with
        | none => ⟨some req, statusCode, some "failed to unmarshal response", none⟩
        | some v => ⟨some req, 0, none, some v⟩
      else
        match env.decodeErrorInfo resp with
        | none => ⟨some req, 0, some "failed to unmarshal error info", none⟩
        | some errInfo => ⟨some req, errInfo.code, some errInfo.message, none⟩

/-- Parameter list built by FetchMarketData: always `symbol`, plus `limit`
exactly when the requested limit is greater than -1. -/
def fetchMarketDataValues (symbol : String) (limit : Int) : List (String × String) :=
  let v := aset ([] : List (String × String)) "symbol" symbol
  if limit > -1 then aset v "limit" (toString limit) else v

/-- FetchMarketData fetches the orderbook for the given symbol: an
unauthenticated (sign=false) GET of the depth endpoint. -/
def fetchMarketData (b : ExchangeBase) (env : HttpEnv MarketData)
    (symbol : String) (limit : Int) : SendOutcome MarketData :=
  sendHTTPRequest b env "GET" binanceDepthPath (fetchMarketDataValues symbol limit) false

/-- State of two concurrent unsynchronized increments of one shared counter:
each thread performs a load (into its register) and then a store of the loaded
value plus one — exactly the shape of the unguarded `RequestCount++` on the
rate-limit window record. -/
structure TwoIncState where
  shared : Nat
  reg1 : Option Nat
  reg2 : Option Nat
deriving DecidableEq

/-- One scheduler step: the chosen thread loads the shared counter if it has
not yet, and otherwise stores its register plus one. -/
def twoIncStep (s : TwoIncState) (who : Bool) : TwoIncState :=
  if who then
    match s.reg1 with
    | none => { s with reg1 := some s.shared }
    | some r => { s with shared := r + 1 }
  else
    match s.reg2 with
    | none => { s with reg2 := some s.shared }
    | some r => { s with shared := r + 1 }

/-- Runs a schedule (which thread acts at each step) of the two increments. -/
def runTwoInc (sched : List Bool) (s : TwoIncState) : TwoIncState :=
  sched.foldl twoIncStep s

/-- Sample environment whose transport always answers 200 with a decodable
body; used for concrete evaluations. -/
def sampleEnvOk : HttpEnv MarketData :=
  ⟨1234567890, fun _s p => "hmac-of-" ++ p, fun _r => Except.ok ("okbody", 200),
    fun s => if s = "okbody" then some ⟨1, [], []⟩ else none,
    fun s => if s = "errbody" then
      some ⟨-1021, "Timestamp for this request is outside of the recvWindow."⟩
    else none⟩

/-- Sample environment whose transport always answers 418 with a well-formed
venue error envelope; used for concrete evaluations. -/
def sampleEnvTeapot : HttpEnv MarketData :=
  ⟨1234567890, fun _s p => "hmac-of-" ++ p, fun _r => Except.ok ("errbody", 418),
    fun s => if s = "okbody" then some ⟨1, [], []⟩ else none,
    fun s => if s = "errbody" then
      some ⟨-1021, "Timestamp for this request is outside of the recvWindow."⟩
    else none⟩

theorem alookup_aset {α β : Type} [DecidableEq α] (l : List (α × β)) (k k' : α) (v : β) :
    alookup (aset l k v) k' = if k' = k then some v else alookup l k' := by
  induction l with
  | nil => simp [aset, alookup]
  | cons hd t ih =>
    obtain ⟨k0, v0⟩ := hd
    by_cases h0 : k0 = k
    · subst h0
      by_cases h1 : k' = k0 <;> simp [aset, alookup, h1]
    · by_cases h1 : k' = k0
      · subst h1
        simp [aset, alookup, h0, Ne.symm h0]
      · simp [aset, alookup, h0, h1, ih]

/-- ASCII lower-casing of a basic latin letter is idempotent. -/
theorem char_toLower_idem (c : Char) : Char.toLower (Char.toLower c) = Char.toLower c := by
  by_cases h : c.toNat ≥ 65 ∧ c.toNat ≤ 90
  · have hv : (c.toNat + 32).isValidChar := Or.inl (by omega)
    have h1 : Char.toLower c = Char.ofNat (c.toNat + 32) := by
      simp only [Char.toLower]
      rw [if_pos h]
    have ht : (Char.ofNat (c.toNat + 32)).toNat = c.toNat + 32 := by
      rw [Char.ofNat, dif_pos hv]
      rfl
    rw [h1]
    simp only [Char.toLower]
    rw [if_neg (by rw [ht]; omega)]
  · have h1 : Char.toLower c = c := by
      simp only [Char.toLower]
      rw [if_neg h]
    rw [h1, h1]

theorem lowerItem_idem (s : String) : lowerItem (lowerItem s) = lowerItem s := by
  show String.mk ((s.data.map Char.toLower).map Char.toLower) = String.mk (s.data.map Char.toLower)
  rw [List.map_map]
  exact congrArg String.mk (List.map_congr_left fun c _ => char_toLower_idem c)

/-- Canonical formatting is idempotent: formatting an already canonical pair
changes nothing. -/
theorem formatPair_canonical_idem (p : CurrencyPair) :
    (p.formatPair "/" false).formatPair "/" false = p.formatPair "/" false := by
  simp [CurrencyPair.formatPair, lowerItem_idem]

/-- Lower-casing the first currency of a canonically formatted pair changes
nothing. -/
theorem lowerItem_formatPair_first (p : CurrencyPair) :
    lowerItem ((p.formatPair "/" false).firstCurrency) = (p.formatPair "/" false).firstCurrency := by
  simp [CurrencyPair.formatPair, lowerItem_idem]

/-- Looking up the key just written always succeeds. -/
theorem alookup_aset_self {α β : Type} [DecidableEq α] (l : List (α × β)) (k : α) (v : β) :
    alookup (aset l k v) k = some v := by
  rw [alookup_aset, if_pos rfl]

/-- Nested map lookups at the canonical key triple succeed after
`processOrderbook`, yielding the freshly stamped snapshot. -/
theorem processOrderbook_lookup (o : Orderbooks) (now : Nat) (ex : String)
    (p : CurrencyPair) (ob : Base) (t : String) :
    ∃ inner inner2,
      alookup (o.processOrderbook now ex p ob t).orderbooks
          ((p.formatPair "/" false).firstCurrency) = some inner ∧
      alookup inner ((p.formatPair "/" false).secondCurrency) = some inner2 ∧
      alookup inner2 t =
        some { ob with currencyPair := (p.formatPair "/" false).pairString,
                       lastUpdated := now } := by
  simp only [Orderbooks.processOrderbook, Orderbooks.formatCurrencyPair]
  by_cases h1 : o.firstCurrencyExists ((p.formatPair "/" false).firstCurrency)
  · rw [if_pos h1]
    by_cases h2 : o.secondCurrencyExists (p.formatPair "/" false)
    · rw [if_neg (by simp [h2])]
      exact ⟨_, _, alookup_aset_self _ _ _, alookup_aset_self _ _ _, alookup_aset_self _ _ _⟩
    · rw [if_pos (by simpa using h2)]
      exact ⟨_, _, alookup_aset_self _ _ _, alookup_aset_self _ _ _, by simp [alookup]⟩
  · rw [if_neg h1]
    exact ⟨_, [(t, Base.mk ob.pair ((p.formatPair "/" false).pairString) ob.bids ob.asks now)],
      alookup_aset_self _ _ _, by simp [alookup], by simp [alookup]⟩

/-- C1: after any `ProcessOrderbook` upsert, a `GetOrderbook` for the same
base/quote/bookType — presented in any case or delimiter variant with the same
canonical form — returns exactly the snapshot stored by that upsert (with the
canonical pair string and the fresh `lastUpdated` stamp), for every prior store
state: both operations normalize the pair through the same canonical-form
conversion before touching the maps. -/
theorem processOrderbook_getOrderbook_roundtrip (o : Orderbooks) (now : Nat)
    (ex ex' : String) (p p' : CurrencyPair) (ob : Base) (t : String)
    (h : p.formatPair "/" false = p'.formatPair "/" false) :
    (o.processOrderbook now ex p ob t).getOrderbook ex' p' t =
      Except.ok { ob with currencyPair := (p.formatPair "/" false).pairString,
                          lastUpdated := now } := by
  obtain ⟨inner, inner2, hl1, hl2, hl3⟩ := processOrderbook_lookup o now ex p ob t
  simp only [Orderbooks.getOrderbook, Orderbooks.formatCurrencyPair, ← h]
  have hfc : (o.processOrderbook now ex p ob t).firstCurrencyExists
      ((p.formatPair "/" false).firstCurrency) = true := by
    simp only [Orderbooks.firstCurrencyExists, Orderbooks.formatCurrency,
      lowerItem_formatPair_first]
    rw [hl1]
    rfl
  have hsc : (o.processOrderbook now ex p ob t).secondCurrencyExists
      (p.formatPair "/" false) = true := by
    simp only [Orderbooks.secondCurrencyExists, Orderbooks.formatCurrencyPair,
      formatPair_canonical_idem, hl1]
    rw [hl2]
    rfl
  rw [hfc, hsc]
  simp only [Bool.true_eq_false, if_false, hl1, Option.getD_some]
  rw [hl2]
  simp only [Option.getD_some]
  rw [hl3]
  rfl

/-- C1 witness: a concrete upsert/get round trip across two case/delimiter
variants of the same pair. -/
theorem processOrderbook_getOrderbook_roundtrip_witness :
    (CurrencyPair.mk "-" "BTC" "USDT").formatPair "/" false =
        (CurrencyPair.mk "_" "btc" "UsdT").formatPair "/" false ∧
    (Orderbooks.init.processOrderbook 5 "binance" ⟨"-", "BTC", "USDT"⟩
        ⟨⟨"-", "BTC", "USDT"⟩, "", [⟨1, 2⟩], [], 0⟩ "SPOT").getOrderbook
        "bittrex" ⟨"_", "btc", "UsdT"⟩ "SPOT" =
      Except.ok ⟨⟨"-", "BTC", "USDT"⟩, "btc/usdt", [⟨1, 2⟩], [], 5⟩ :=
  ⟨rfl, processOrderbook_getOrderbook_roundtrip _ 5 "binance" "bittrex" _ _ _ _ rfl⟩

/-- Messages of the primary-currency error and any secondary-currency error
differ (the latter is strictly longer). -/
theorem primary_message_ne_secondary_message (a b : String) :
    ErrPrimaryCurrencyNotFound ≠ ErrSecondaryCurrencyNotFound ++ "-" ++ a ++ "-" ++ b := by
  intro h
  have hl := congrArg String.length h
  simp only [String.length_append] at hl
  have h1 : ErrPrimaryCurrencyNotFound.length = 47 := rfl
  have h2 : ErrSecondaryCurrencyNotFound.length = 49 := rfl
  have h3 : ("-" : String).length = 1 := rfl
  simp only [h1, h2, h3] at hl
  omega

/-- C4: `GetOrderbook` fails with the primary-currency error exactly when the
canonicalized base has no entries; fails with the secondary-currency error —
whose message names both canonical symbols — exactly when the base exists but
the quote does not; and when both exist but the bookType key is absent it
returns the empty snapshot with no error. -/
theorem getOrderbook_error_taxonomy (o : Orderbooks) (ex : String) (p : CurrencyPair)
    (t : String) :
    (o.getOrderbook ex p t = Except.error ErrPrimaryCurrencyNotFound ↔
      o.firstCurrencyExists ((o.formatCurrencyPair p).firstCurrency) = false) ∧
    (o.getOrderbook ex p t =
        Except.error (ErrSecondaryCurrencyNotFound ++ "-" ++
          (o.formatCurrencyPair p).firstCurrency ++ "-" ++
          (o.formatCurrencyPair p).secondCurrency) ↔
      (o.firstCurrencyExists ((o.formatCurrencyPair p).firstCurrency) = true ∧
        o.secondCurrencyExists (o.formatCurrencyPair p) = false)) ∧
    (o.firstCurrencyExists ((o.formatCurrencyPair p).firstCurrency) = true →
      o.secondCurrencyExists (o.formatCurrencyPair p) = true →
      alookup ((alookup ((alookup o.orderbooks
          ((o.formatCurrencyPair p).firstCurrency)).getD [])
          ((o.formatCurrencyPair p).secondCurrency)).getD []) t = none →
      o.getOrderbook ex p t = Except.ok Base.empty) := by
  simp only [Orderbooks.getOrderbook]
  by_cases h1 : o.firstCurrencyExists ((o.formatCurrencyPair p).firstCurrency) = false
  · rw [if_pos h1]
    refine ⟨by simp [h1], ?_, ?_⟩
    · constructor
      · intro hc
        exact absurd (Except.error.inj hc) (primary_message_ne_secondary_message _ _)
      · rintro ⟨hfc, _⟩
        rw [hfc] at h1
        cases h1
    · intro hfc
      rw [hfc] at h1
      cases h1
  · rw [if_neg h1]
    have h1t : o.firstCurrencyExists ((o.formatCurrencyPair p).firstCurrency) = true := by
      revert h1
      cases o.firstCurrencyExists ((o.formatCurrencyPair p).firstCurrency) <;> simp
    by_cases h2 : o.secondCurrencyExists (o.formatCurrencyPair p) = false
    · rw [if_pos h2]
      refine ⟨?_, by simp [h1t, h2], ?_⟩
      · constructor
        · intro hc
          exact absurd (Except.error.inj hc).symm (primary_message_ne_secondary_message _ _)
        · intro hfc
          rw [hfc] at h1t
          cases h1t
      · intro _ hsc
        rw [hsc] at h2
        cases h2
    · rw [if_neg h2]
      have h2t : o.secondCurrencyExists (o.formatCurrencyPair p) = true := by
        revert h2
        cases o.secondCurrencyExists (o.formatCurrencyPair p) <;> simp
      refine ⟨by simp [h1t], by simp [h2t], ?_⟩
      intro _ _ habs
      rw [habs]
      rfl

/-- C4 witness: a store holding only a MARGIN book for btc/usd answers a SPOT
query on the same pair with the empty snapshot and no error. -/
theorem getOrderbook_error_taxonomy_witness :
    (Orderbooks.mk [("btc", [("usd",
        [("MARGIN", Base.mk ⟨"/", "btc", "usd"⟩ "btc/usd" [] [] 3)])])]).getOrderbook
      "binance" ⟨"-", "BTC", "USD"⟩ "SPOT" = Except.ok Base.empty :=
  (getOrderbook_error_taxonomy _ "binance" ⟨"-", "BTC", "USD"⟩ "SPOT").2.2
    (by decide) (by decide) (by decide)

/-- C10: both `GetOrderbook` and `ProcessOrderbook` ignore their exchange-name
parameter entirely: any two values of that argument yield identical results and
identical post-states. -/
theorem exchangeName_parameter_ignored (o : Orderbooks) (now : Nat) (e1 e2 : String)
    (p p2 : CurrencyPair) (ob : Base) (t t2 : String) :
    o.processOrderbook now e1 p ob t = o.processOrderbook now e2 p ob t ∧
    o.getOrderbook e1 p2 t2 = o.getOrderbook e2 p2 t2 :=
  ⟨rfl, rfl⟩

/-- C2 counterexample: with the window unexpired and the count at the budget,
a call whose result argument is a nil pointer returns an argument error
instead of silently copying the default, so the claimed "no error for every
result and defaultValue argument" fails. -/
theorem sendRateLimited_throttle_counterexample :
    (sendRateLimitedHTTPRequest (α := Nat) [("GETapi/v1/depth", ⟨100, 2⟩)] 150 2
        "GET" "api/v1/depth" ResultSinkKind.nilPtr (some 7)).2 =
      RLResult.errResult "result must be a non-nil pointer" := by
  decide

/-- C2 (amended): when the endpoint's window is unexpired and its count has
reached the budget, the call never proceeds to the network; if the result
sink is a non-nil pointer and the default value is non-nil, the default is
copied into the sink and no error is returned, while a result that is not a
non-nil pointer, or a nil default, yields an argument-validation error. -/
theorem sendRateLimited_exhausted_degrades {α : Type}
    (rls : List (String × rateLimitInfo)) (now : Int) (n : Nat)
    (method path : String) (sink : ResultSinkKind) (dv : Option α)
    (hstart : ((alookup rls (method ++ path)).getD ⟨0, 0⟩).startTime ≠ 0)
    (hwin : now - ((alookup rls (method ++ path)).getD ⟨0, 0⟩).startTime ≤ 90)
    (hcount : n ≤ ((alookup rls (method ++ path)).getD ⟨0, 0⟩).requestCount) :
    (sendRateLimitedHTTPRequest rls now n method path sink dv).2 ≠ RLResult.network ∧
    (∀ d : α, sink = ResultSinkKind.validPtr → dv = some d →
      (sendRateLimitedHTTPRequest rls now n method path sink dv).2 =
        RLResult.defaultSet d) ∧
    (sink ≠ ResultSinkKind.validPtr →
      (sendRateLimitedHTTPRequest rls now n method path sink dv).2 =
        RLResult.errResult "result must be a non-nil pointer") ∧
    (sink = ResultSinkKind.validPtr → dv = none →
      (sendRateLimitedHTTPRequest rls now n method path sink dv).2 =
        RLResult.errResult "default value must be not be nil") := by
  have hne : ¬(((alookup rls (method ++ path)).getD ⟨0, 0⟩).startTime = 0 ∨
      now - ((alookup rls (method ++ path)).getD ⟨0, 0⟩).startTime > 90) := by
    push_neg
    exact ⟨hstart, by omega⟩
  simp only [sendRateLimitedHTTPRequest, if_neg hne]
  rw [if_neg (by omega)]
  refine ⟨?_, ?_, ?_, ?_⟩
  · cases sink <;> cases dv <;> simp
  · intro d hs hd
    subst hs
    subst hd
    rfl
  · intro hs
    cases sink <;> cases dv <;> simp_all
  · intro hs hd
    subst hs
    subst hd
    rfl

/-- C2 witness: a concrete exhausted call with a valid sink and default 1
degrades to the default with no error. -/
theorem sendRateLimited_exhausted_degrades_witness :
    (sendRateLimitedHTTPRequest (α := Nat) [("GETapi/v3/account", ⟨10, 3⟩)] 50 3
        "GET" "api/v3/account" ResultSinkKind.validPtr (some 1)).2 =
      RLResult.defaultSet 1 :=
  (sendRateLimited_exhausted_degrades _ 50 3 "GET" "api/v3/account" _ _
    (by decide) (by decide) (by decide)).2.1 1 rfl rfl

/-- Shape of one rate-limiter step: the stored entry is the (possibly reset)
window record, incremented exactly on the network path, and the call proceeds
to the network path exactly when the post-reset count is below the budget. -/
theorem sendRateLimited_step_entry {α : Type} (rls : List (String × rateLimitInfo))
    (now : Int) (n : Nat) (method path : String) (sink : ResultSinkKind)
    (dv : Option α) (rl1 : rateLimitInfo)
    (hrl1 : rl1 = if ((alookup rls (method ++ path)).getD ⟨0, 0⟩).startTime = 0 ∨
        now - ((alookup rls (method ++ path)).getD ⟨0, 0⟩).startTime > 90
      then ⟨now, 0⟩ else (alookup rls (method ++ path)).getD ⟨0, 0⟩) :
    (sendRateLimitedHTTPRequest rls now n method path sink dv).1 =
      aset rls (method ++ path)
        (if rl1.requestCount < n then ⟨rl1.startTime, rl1.requestCount + 1⟩ else rl1) ∧
    ((sendRateLimitedHTTPRequest rls now n method path sink dv).2 = RLResult.network ↔
      rl1.requestCount < n) := by
  subst hrl1
  simp only [sendRateLimitedHTTPRequest]
  by_cases hc : (if ((alookup rls (method ++ path)).getD ⟨0, 0⟩).startTime = 0 ∨
      now - ((alookup rls (method ++ path)).getD ⟨0, 0⟩).startTime > 90
    then (⟨now, 0⟩ : rateLimitInfo)
    else (alookup rls (method ++ path)).getD ⟨0, 0⟩).requestCount < n
  · refine ⟨by simp only [if_pos hc], ?_⟩
    simp [if_pos hc, hc]
  · refine ⟨by simp only [if_neg hc], ?_⟩
    cases sink <;> cases dv <;> simp [if_neg hc, hc]

/-- Outcome of one rate-limiter step with a valid sink and non-nil default:
network below budget, the default otherwise. -/
theorem sendRateLimited_step_outcome {α : Type} (rls : List (String × rateLimitInfo))
    (now : Int) (n : Nat) (method path : String) (d : α) (rl1 : rateLimitInfo)
    (hrl1 : rl1 = if ((alookup rls (method ++ path)).getD ⟨0, 0⟩).startTime = 0 ∨
        now - ((alookup rls (method ++ path)).getD ⟨0, 0⟩).startTime > 90
      then ⟨now, 0⟩ else (alookup rls (method ++ path)).getD ⟨0, 0⟩) :
    (sendRateLimitedHTTPRequest rls now n method path
        ResultSinkKind.validPtr (some d)).2 =
      if rl1.requestCount < n then RLResult.network else RLResult.defaultSet d := by
  subst hrl1
  simp only [sendRateLimitedHTTPRequest]
  by_cases hc : (if ((alookup rls (method ++ path)).getD ⟨0, 0⟩).startTime = 0 ∨
      now - ((alookup rls (method ++ path)).getD ⟨0, 0⟩).startTime > 90
    then (⟨now, 0⟩ : rateLimitInfo)
    else (alookup rls (method ++ path)).getD ⟨0, 0⟩).requestCount < n
  · simp only [if_pos hc]
  · simp only [if_neg hc]

/-- Within an established, unexpired window starting at `t0`, each call
proceeds to the network path while the stored count is below the budget and
degrades to the default afterwards, and the stored count stays capped at the
budget. -/
theorem runRateLimited_within_window {α : Type} (n : Nat) (method path : String)
    (d : α) (t0 : Int) (h0 : t0 ≠ 0) (ts : List Int) (hts : ∀ t ∈ ts, t - t0 ≤ 90)
    (k : Nat) (rls : List (String × rateLimitInfo))
    (hentry : alookup rls (method ++ path) = some ⟨t0, min k n⟩) :
    (runRateLimited n method path ResultSinkKind.validPtr (some d) ts rls).2 =
      (List.range ts.length).map
        (fun i => if k + i < n then RLResult.network else RLResult.defaultSet d) ∧
    alookup (runRateLimited n method path ResultSinkKind.validPtr (some d) ts rls).1
        (method ++ path) = some ⟨t0, min (k + ts.length) n⟩ := by
  induction ts generalizing k rls with
  | nil => simpa [runRateLimited] using hentry
  | cons t ts ih =>
    have hwt : t - t0 ≤ 90 := hts t (by simp)
    have hts' : ∀ u ∈ ts, u - t0 ≤ 90 := fun u hu => hts u (by simp [hu])
    have hrl1 : (rateLimitInfo.mk t0 (min k n)) =
        if ((alookup rls (method ++ path)).getD ⟨0, 0⟩).startTime = 0 ∨
          t - ((alookup rls (method ++ path)).getD ⟨0, 0⟩).startTime > 90
        then ⟨t, 0⟩ else (alookup rls (method ++ path)).getD ⟨0, 0⟩ := by
      simp only [hentry, Option.getD_some]
      rw [if_neg (by push_neg; exact ⟨h0, hwt⟩)]
    have hstep := sendRateLimited_step_entry rls t n method path
      ResultSinkKind.validPtr (some d) ⟨t0, min k n⟩ hrl1
    have hout := sendRateLimited_step_outcome rls t n method path d ⟨t0, min k n⟩ hrl1
    have harg : (if (rateLimitInfo.mk t0 (min k n)).requestCount < n
        then rateLimitInfo.mk (rateLimitInfo.mk t0 (min k n)).startTime
          ((rateLimitInfo.mk t0 (min k n)).requestCount + 1)
        else rateLimitInfo.mk t0 (min k n)) = rateLimitInfo.mk t0 (min (k + 1) n) := by
      by_cases hk : k < n
      · rw [if_pos (by simp; omega)]
        simp
        omega
      · rw [if_neg (by simp; omega)]
        simp
        omega
    rw [harg] at hstep
    have hout2 : (sendRateLimitedHTTPRequest rls t n method path
        ResultSinkKind.validPtr (some d)).2 =
        if k < n then RLResult.network else RLResult.defaultSet d := by
      rw [hout]
      by_cases hk : k < n
      · rw [if_pos (by simp; omega), if_pos hk]
      · rw [if_neg (by simp; omega), if_neg hk]
    obtain ⟨ih1, ih2⟩ := ih hts' (k + 1)
      (aset rls (method ++ path) ⟨t0, min (k + 1) n⟩)
      (alookup_aset_self _ _ _)
    simp only [runRateLimited, hstep.1, hout2, List.length_cons]
    constructor
    · rw [ih1, List.range_succ_eq_map, List.map_cons, List.map_map]
      congr 1
      refine List.map_congr_left fun a _ => ?_
      have hik : k + 1 + a = k + a.succ := by omega
      simp only [Function.comp_apply]
      rw [hik]
    · rw [ih2]
      have hlen : k + 1 + ts.length = k + (ts.length + 1) := by omega
      rw [hlen]

/-- Fields of the entry stored by one rate-limiter step, in terms of the
post-reset window record. -/
theorem stored_entry_fields (rl1 : rateLimitInfo) (n : Nat) :
    (if rl1.requestCount < n then rateLimitInfo.mk rl1.startTime (rl1.requestCount + 1)
      else rl1).startTime = rl1.startTime ∧
    (rl1.requestCount ≤ n →
      (if rl1.requestCount < n then rateLimitInfo.mk rl1.startTime (rl1.requestCount + 1)
        else rl1).requestCount ≤ n) := by
  by_cases hc : rl1.requestCount < n <;> (simp [hc]; try omega)

/-- C3: (i) one rate-limited call never pushes a window count that respected
the budget above it; (ii) from a fresh store, calls at times within 90 seconds
of the first call's (nonzero) time see exactly the first n calls proceed to
the network path and every further call degrade to the default, with the
stored count capped at n and the window start pinned to the first call; (iii)
an exhausted call inside an unexpired window leaves the window entry
unchanged — exhaustion never resets it — and does not reach the network; (iv)
the stored window start becomes `now` exactly when the entry was fresh or
older than 90 seconds, and is kept otherwise. -/
theorem rateLimiter_window_accounting {α : Type} (n : Nat) (method path : String)
    (sink : ResultSinkKind) (dv : Option α) (rls : List (String × rateLimitInfo))
    (now : Int) (t0 : Int) (ts : List Int) (d : α) :
    (((alookup rls (method ++ path)).getD ⟨0, 0⟩).requestCount ≤ n →
      ((alookup (sendRateLimitedHTTPRequest rls now n method path sink dv).1
          (method ++ path)).getD ⟨0, 0⟩).requestCount ≤ n) ∧
    (t0 ≠ 0 → (∀ t ∈ ts, t - t0 ≤ 90) →
      (runRateLimited n method path ResultSinkKind.validPtr (some d) (t0 :: ts) []).2 =
        (List.range (ts.length + 1)).map
          (fun i => if i < n then RLResult.network else RLResult.defaultSet d) ∧
      alookup (runRateLimited n method path ResultSinkKind.validPtr (some d)
          (t0 :: ts) []).1 (method ++ path) = some ⟨t0, min (ts.length + 1) n⟩) ∧
    (((alookup rls (method ++ path)).getD ⟨0, 0⟩).startTime ≠ 0 →
      now - ((alookup rls (method ++ path)).getD ⟨0, 0⟩).startTime ≤ 90 →
      n ≤ ((alookup rls (method ++ path)).getD ⟨0, 0⟩).requestCount →
      alookup (sendRateLimitedHTTPRequest rls now n method path sink dv).1
          (method ++ path) = some ((alookup rls (method ++ path)).getD ⟨0, 0⟩) ∧
      (sendRateLimitedHTTPRequest rls now n method path sink dv).2 ≠ RLResult.network) ∧
    ((alookup (sendRateLimitedHTTPRequest rls now n method path sink dv).1
        (method ++ path)).getD ⟨0, 0⟩).startTime =
      (if ((alookup rls (method ++ path)).getD ⟨0, 0⟩).startTime = 0 ∨
          now - ((alookup rls (method ++ path)).getD ⟨0, 0⟩).startTime > 90 then now
        else ((alookup rls (method ++ path)).getD ⟨0, 0⟩).startTime) := by
  have hstep := sendRateLimited_step_entry rls now n method path sink dv _ rfl
  refine ⟨?_, ?_, ?_, ?_⟩
  · intro hinv
    rw [hstep.1, alookup_aset_self, Option.getD_some]
    refine (stored_entry_fields _ n).2 ?_
    by_cases hr : ((alookup rls (method ++ path)).getD ⟨0, 0⟩).startTime = 0 ∨
        now - ((alookup rls (method ++ path)).getD ⟨0, 0⟩).startTime > 90
    · simp [if_pos hr]
    · simp only [if_neg hr]
      exact hinv
  · intro h0 hts
    have hrl1 : (rateLimitInfo.mk t0 0) =
        if ((alookup ([] : List (String × rateLimitInfo)) (method ++ path)).getD
            ⟨0, 0⟩).startTime = 0 ∨
          t0 - ((alookup ([] : List (String × rateLimitInfo)) (method ++ path)).getD
            ⟨0, 0⟩).startTime > 90
        then ⟨t0, 0⟩ else (alookup ([] : List (String × rateLimitInfo))
          (method ++ path)).getD ⟨0, 0⟩ := by
      simp [alookup]
    have hstep0 := sendRateLimited_step_entry ([] : List (String × rateLimitInfo)) t0 n
      method path ResultSinkKind.validPtr (some d) ⟨t0, 0⟩ hrl1
    have hout0 := sendRateLimited_step_outcome ([] : List (String × rateLimitInfo)) t0 n
      method path d ⟨t0, 0⟩ hrl1
    have harg0 : (if (rateLimitInfo.mk t0 0).requestCount < n
        then rateLimitInfo.mk (rateLimitInfo.mk t0 0).startTime
          ((rateLimitInfo.mk t0 0).requestCount + 1)
        else rateLimitInfo.mk t0 0) = rateLimitInfo.mk t0 (min 1 n) := by
      by_cases hn : 0 < n
      · rw [if_pos (by simpa using hn)]
        simp
        omega
      · rw [if_neg (by simpa using hn)]
        simp
        omega
    rw [harg0] at hstep0
    have hout0b : (sendRateLimitedHTTPRequest [] t0 n method path
        ResultSinkKind.validPtr (some d)).2 =
        if 0 < n then RLResult.network else RLResult.defaultSet d := by
      rw [hout0]
    obtain ⟨hw1, hw2⟩ := runRateLimited_within_window n method path d t0 h0 ts hts 1
      (aset ([] : List (String × rateLimitInfo)) (method ++ path) ⟨t0, min 1 n⟩)
      (alookup_aset_self _ _ _)
    simp only [runRateLimited, hstep0.1, hout0b]
    constructor
    · rw [hw1, List.range_succ_eq_map, List.map_cons, List.map_map]
      congr 1
      refine List.map_congr_left fun a _ => ?_
      have hik : 1 + a = a.succ := by omega
      simp only [Function.comp_apply]
      rw [hik]
    · rw [hw2]
      have hlen : 1 + ts.length = ts.length + 1 := by omega
      rw [hlen]
  · intro hstart hwin hcount
    have hr : ¬(((alookup rls (method ++ path)).getD ⟨0, 0⟩).startTime = 0 ∨
        now - ((alookup rls (method ++ path)).getD ⟨0, 0⟩).startTime > 90) := by
      push_neg
      exact ⟨hstart, by omega⟩
    rw [if_neg hr] at hstep
    constructor
    · rw [hstep.1, if_neg (by omega), alookup_aset_self]
    · intro hnet
      have := hstep.2.mp hnet
      omega
  · rw [hstep.1, alookup_aset_self, Option.getD_some, (stored_entry_fields _ n).1]
    by_cases hr : ((alookup rls (method ++ path)).getD ⟨0, 0⟩).startTime = 0 ∨
        now - ((alookup rls (method ++ path)).getD ⟨0, 0⟩).startTime > 90
    · simp [if_pos hr]
    · simp [if_neg hr]

/-- C3 witness: with budget 2, three calls inside one 90-second window proceed
twice and then degrade to the default. -/
theorem rateLimiter_window_accounting_witness :
    (100 : Int) ≠ 0 ∧ (∀ t ∈ [(110 : Int), 150], t - 100 ≤ 90) ∧
    (runRateLimited 2 "GET" "api/v1/depth" ResultSinkKind.validPtr (some 42)
        [100, 110, 150] []).2 =
      [RLResult.network, RLResult.network, RLResult.defaultSet 42] := by
  have h := (rateLimiter_window_accounting (α := Nat) 2 "GET" "api/v1/depth"
    ResultSinkKind.validPtr (some 42) [] 0 100 [110, 150] 42).2.1
    (by decide) (by decide)
  refine ⟨by decide, by decide, ?_⟩
  rw [h.1]
  decide

/-- C9 evidence: with no lock around the rate-limit window state, the
interleaving load1-load2-store1-store2 of two concurrent `RequestCount++`
updates loses one increment (final count 1), while the serialized schedule
yields 2 — the unsynchronized accounting of `SendRateLimitedHTTPRequest` can
be corrupted by concurrent calls. -/
theorem unsynchronized_increment_lost_update :
    (runTwoInc [true, false, true, false] ⟨0, none, none⟩).shared = 1 ∧
    (runTwoInc [true, true, false, false] ⟨0, none, none⟩).shared = 2 := by
  decide

/-- With credentials configured, `SendHTTPRequest` always dispatches exactly
the request it built, whatever the transport and decoders do. -/
theorem sendHTTPRequest_requestSent_eq {α : Type} (b : ExchangeBase) (env : HttpEnv α)
    (method path : String) (params : List (String × String)) (sign : Bool)
    (hauth : b.authenticatedAPISupport = true) :
    (sendHTTPRequest b env method path params sign).requestSent =
      some (buildRequest b env method path params sign) := by
  simp only [sendHTTPRequest]
  rw [if_neg (by simp [hauth])]
  rcases htr : env.transport (buildRequest b env method path params sign) with e | pr
  · rfl
  · obtain ⟨resp, status⟩ := pr
    by_cases hst : 200 ≤ status ∧ status ≤ 299
    · rcases hd : env.decodeResult resp with _ | v <;> simp [hst, hd]
    · rcases hd : env.decodeErrorInfo resp with _ | ei <;> simp [hst, hd]

/-- C5 counterexample: with credentials not configured, FetchMarketData's
unauthenticated (sign=false) GET still fails immediately with the
missing-credentials error, and no request is dispatched. -/
theorem fetchMarketData_no_credentials_counterexample :
    fetchMarketData ⟨"Binance", false, "", ""⟩ sampleEnvOk "BTCUSDT" (-1) =
      ⟨none, 0, some (warningAuthenticatedRequestWithoutCredentialsSet "Binance"),
        none⟩ := by
  rfl

/-- C5 (amended): `SendHTTPRequest` fails immediately with the
missing-credentials error and dispatches nothing exactly when
`AuthenticatedAPISupport` is unset, regardless of the sign flag — so an
unauthenticated (sign=false) call such as FetchMarketData's also fails when
credentials are not configured; when the flag is set, the request is always
dispatched. -/
theorem sendHTTPRequest_credentials_guard {α : Type} (b : ExchangeBase) (env : HttpEnv α)
    (method path : String) (params : List (String × String)) (sign : Bool) :
    (b.authenticatedAPISupport = false →
      sendHTTPRequest b env method path params sign =
        ⟨none, 0, some (warningAuthenticatedRequestWithoutCredentialsSet b.name),
          none⟩) ∧
    (b.authenticatedAPISupport = true →
      (sendHTTPRequest b env method path params sign).requestSent =
        some (buildRequest b env method path params sign)) := by
  constructor
  · intro hflag
    simp only [sendHTTPRequest, if_pos hflag]
  · intro hflag
    exact sendHTTPRequest_requestSent_eq b env method path params sign hflag

/-- C5 witness: the guard fires for a sign=false call without credentials and
does not fire for a sign=false call with credentials. -/
theorem sendHTTPRequest_credentials_guard_witness :
    sendHTTPRequest ⟨"Binance", false, "", ""⟩ sampleEnvOk "GET" binanceDepthPath
        [] false =
      ⟨none, 0, some (warningAuthenticatedRequestWithoutCredentialsSet "Binance"),
        none⟩ ∧
    (sendHTTPRequest ⟨"Binance", true, "k", "s"⟩ sampleEnvOk "GET" binanceDepthPath
        [] false).requestSent =
      some (buildRequest ⟨"Binance", true, "k", "s"⟩ sampleEnvOk "GET"
        binanceDepthPath [] false) :=
  ⟨(sendHTTPRequest_credentials_guard ⟨"Binance", false, "", ""⟩ sampleEnvOk "GET"
      binanceDepthPath [] false).1 rfl,
    (sendHTTPRequest_credentials_guard ⟨"Binance", true, "k", "s"⟩ sampleEnvOk "GET"
      binanceDepthPath [] false).2 rfl⟩

/-- C6: a signed call appends the millisecond timestamp and recvWindow=5000 to
the encoded parameters, computes the hex HMAC-SHA256 of the configured secret
over exactly that query string, appends the digest as the `signature`
parameter, and attaches the API key only as the X-MBX-APIKEY header — the
payload travels in the URL query for GET and in the form body otherwise, and
the dispatched request is a deterministic function of the clock, parameters
and credentials. -/
theorem sendHTTPRequest_signing {α : Type} (b : ExchangeBase) (env : HttpEnv α)
    (method path : String) (params : List (String × String))
    (hauth : b.authenticatedAPISupport = true) :
    (sendHTTPRequest b env method path params true).requestSent =
      some (buildRequest b env method path params true) ∧
    (∀ payload0 payload1 : String,
      payload0 = (if params ≠ [] then encodeValues params else "") →
      payload1 = (if payload0 ≠ "" then
          payload0 ++ "&" ++ ("timestamp=" ++ toString (env.nowNanos / (1000 * 1000)) ++
            "&recvWindow=" ++ toString (5000 : Nat))
        else "timestamp=" ++ toString (env.nowNanos / (1000 * 1000)) ++
          "&recvWindow=" ++ toString (5000 : Nat)) →
      buildRequest b env method path params true =
        if method = "GET" then
          HTTPRequest.mk method (binanceBaseURL ++ path ++ "?" ++
              (payload1 ++ "&signature=" ++ env.hmacSHA256hex b.apiSecret payload1))
            [("Accept", "application/json"), ("X-MBX-APIKEY", b.apiKey)] none
        else
          HTTPRequest.mk method (binanceBaseURL ++ path)
            [("Accept", "application/json"), ("X-MBX-APIKEY", b.apiKey),
              ("Content-Type", "application/x-www-form-urlencoded")]
            (some (payload1 ++ "&signature=" ++
              env.hmacSHA256hex b.apiSecret payload1))) := by
  refine ⟨sendHTTPRequest_requestSent_eq b env method path params true hauth, ?_⟩
  intro payload0 payload1 h0 h1
  subst h1
  subst h0
  rfl

/-- C6 witness: a concrete signed GET of the account endpoint carries the
timestamp, recvWindow and signature in its query and the key in its header. -/
theorem sendHTTPRequest_signing_witness :
    (sendHTTPRequest (ExchangeBase.mk "Binance" true "APIKEY" "SECRET") sampleEnvOk
        "GET" binanceAccountPath [] true).requestSent =
      some (HTTPRequest.mk "GET"
        (binanceBaseURL ++ binanceAccountPath ++ "?" ++
          ("timestamp=1234&recvWindow=5000" ++ "&signature=" ++
            "hmac-of-timestamp=1234&recvWindow=5000"))
        [("Accept", "application/json"), ("X-MBX-APIKEY", "APIKEY")] none) := by
  have h := sendHTTPRequest_signing (ExchangeBase.mk "Binance" true "APIKEY" "SECRET")
    sampleEnvOk "GET" binanceAccountPath [] rfl
  rw [h.1, h.2 "" "timestamp=1234&recvWindow=5000" (by decide) (by decide)]
  decide

/-- C7: against a transport answering a 2xx status, a decodable body is
written to the result sink with no error and a non-decodable body surfaces the
malformed-response error; against any other status, a well-formed error
envelope's code and message are returned verbatim and a malformed envelope
surfaces the distinct unmarshal-error-info error; a transport failure is
returned verbatim with code 0 — each outcome is a different error value. -/
theorem sendHTTPRequest_response_decoding {α : Type} (b : ExchangeBase)
    (env : HttpEnv α) (method path : String) (params : List (String × String))
    (sign : Bool) (body : String) (status : Int) (e : String)
    (hauth : b.authenticatedAPISupport = true) :
    ((∀ r, env.transport r = Except.ok (body, status)) →
      ((200 ≤ status ∧ status ≤ 299) →
        (∀ v, env.decodeResult body = some v →
          sendHTTPRequest b env method path params sign =
            ⟨some (buildRequest b env method path params sign), 0, none, some v⟩) ∧
        (env.decodeResult body = none →
          sendHTTPRequest b env method path params sign =
            ⟨some (buildRequest b env method path params sign), status,
              some "failed to unmarshal response", none⟩)) ∧
      (¬(200 ≤ status ∧ status ≤ 299) →
        (∀ c m, env.decodeErrorInfo body = some ⟨c, m⟩ →
          sendHTTPRequest b env method path params sign =
            ⟨some (buildRequest b env method path params sign), c, some m, none⟩) ∧
        (env.decodeErrorInfo body = none →
          sendHTTPRequest b env method path params sign =
            ⟨some (buildRequest b env method path params sign), 0,
              some "failed to unmarshal error info", none⟩))) ∧
    ((∀ r, env.transport r = Except.error e) →
      sendHTTPRequest b env method path params sign =
        ⟨some (buildRequest b env method path params sign), 0, some e, none⟩) := by
  have hne : ¬(b.authenticatedAPISupport = false) := by simp [hauth]
  constructor
  · intro htr
    constructor
    · intro hst
      constructor
      · intro v hv
        simp only [sendHTTPRequest, if_neg hne, htr, if_pos hst, hv]
      · intro hv
        simp only [sendHTTPRequest, if_neg hne, htr, if_pos hst, hv]
    · intro hst
      constructor
      · intro c m hv
        simp only [sendHTTPRequest, if_neg hne, htr, if_neg hst, hv]
      · intro hv
        simp only [sendHTTPRequest, if_neg hne, htr, if_neg hst, hv]
  · intro htr
    simp only [sendHTTPRequest, if_neg hne, htr]

/-- C7 witness: a mocked 418 response with a well-formed envelope yields the
venue's own code and message unchanged. -/
theorem sendHTTPRequest_response_decoding_witness :
    sendHTTPRequest (ExchangeBase.mk "Binance" true "k" "s") sampleEnvTeapot
        "GET" binanceAccountPath [] true =
      ⟨some (buildRequest (ExchangeBase.mk "Binance" true "k" "s") sampleEnvTeapot
          "GET" binanceAccountPath [] true), -1021,
        some "Timestamp for this request is outside of the recvWindow.", none⟩ :=
  (((sendHTTPRequest_response_decoding (ExchangeBase.mk "Binance" true "k" "s")
      sampleEnvTeapot "GET" binanceAccountPath [] true "errbody" 418 "" rfl).1
    (fun _r => rfl)).2 (by decide)).1 (-1021)
    "Timestamp for this request is outside of the recvWindow." (by decide)

/-- C8: FetchMarketData with the "unspecified" limit (-1) omits the limit
parameter entirely while limit 0 sends an explicit limit=0, and the two
dispatched request forms are distinct for every symbol. -/
theorem fetchMarketData_limit_boundary (b : ExchangeBase) (env : HttpEnv MarketData)
    (symbol : String) (hauth : b.authenticatedAPISupport = true) :
    fetchMarketDataValues symbol (-1) = [("symbol", symbol)] ∧
    fetchMarketDataValues symbol 0 = [("symbol", symbol), ("limit", "0")] ∧
    (fetchMarketData b env symbol (-1)).requestSent =
      some (HTTPRequest.mk "GET"
        (binanceBaseURL ++ binanceDepthPath ++ "?" ++ ("symbol=" ++ symbol))
        [("Accept", "application/json")] none) ∧
    (fetchMarketData b env symbol 0).requestSent =
      some (HTTPRequest.mk "GET"
        (binanceBaseURL ++ binanceDepthPath ++ "?" ++ ("limit=0&symbol=" ++ symbol))
        [("Accept", "application/json")] none) ∧
    (fetchMarketData b env symbol (-1)).requestSent ≠
      (fetchMarketData b env symbol 0).requestSent := by
  have h3 : (fetchMarketData b env symbol (-1)).requestSent =
      some (HTTPRequest.mk "GET"
        (binanceBaseURL ++ binanceDepthPath ++ "?" ++ ("symbol=" ++ symbol))
        [("Accept", "application/json")] none) := by
    rw [fetchMarketData, sendHTTPRequest_requestSent_eq _ _ _ _ _ _ hauth]
    rfl
  have h4 : (fetchMarketData b env symbol 0).requestSent =
      some (HTTPRequest.mk "GET"
        (binanceBaseURL ++ binanceDepthPath ++ "?" ++ ("limit=0&symbol=" ++ symbol))
        [("Accept", "application/json")] none) := by
    rw [fetchMarketData, sendHTTPRequest_requestSent_eq _ _ _ _ _ _ hauth]
    rfl
  refine ⟨rfl, rfl, h3, h4, ?_⟩
  rw [h3, h4]
  intro hcontra
  have h1 := congrArg HTTPRequest.url (Option.some.inj hcontra)
  have h2 := congrArg String.length h1
  simp only [String.length_append] at h2
  have e1 : ("symbol=" : String).length = 7 := rfl
  have e2 : ("limit=0&symbol=" : String).length = 15 := rfl
  rw [e1, e2] at h2
  omega

/-- C8 witness: concrete requests for symbol BTCUSDT with limit -1 and 0
differ exactly in the presence of the limit parameter. -/
theorem fetchMarketData_limit_boundary_witness :
    (fetchMarketData ⟨"Binance", true, "k", "s"⟩ sampleEnvOk "BTCUSDT"
        (-1)).requestSent =
      some (HTTPRequest.mk "GET"
        (binanceBaseURL ++ binanceDepthPath ++ "?" ++ "symbol=BTCUSDT")
        [("Accept", "application/json")] none) ∧
    (fetchMarketData ⟨"Binance", true, "k", "s"⟩ sampleEnvOk "BTCUSDT"
        0).requestSent =
      some (HTTPRequest.mk "GET"
        (binanceBaseURL ++ binanceDepthPath ++ "?" ++ "limit=0&symbol=BTCUSDT")
        [("Accept", "application/json")] none) := by
  have h := fetchMarketData_limit_boundary ⟨"Binance", true, "k", "s"⟩ sampleEnvOk
    "BTCUSDT" rfl
  refine ⟨by rw [h.2.2.1]; rfl, by rw [h.2.2.2.1]; rfl⟩
